import Mathlib

/-!
Verification of the risk-classification and feature-engineering pipeline of
the financial-transactions repository.

The pipeline lives in `src/02_clean_and_engineer.py`.  It loads three CSV
tables (customers, transactions, payments), left-joins transactions with
payments on `txn_id`, drops exact duplicate rows, derives `is_paid` and
`delay_days`, left-joins with customers on `customer_id`, fills missing
`sector`/`country` with "Unknown", and assigns a `risk_level` via the pure
function `assign_risk_level`.

Tables are modelled as lists of records; pandas' missing marker (NaN / NaT)
is modelled with `Option`.  Dates after parsing are integers (a day count:
only differences of dates matter downstream).  Float values observed by the
script's comparisons are modelled as `Option ℚ`, where `none` stands for NaN;
any `>=` comparison on NaN is false, which is exactly the IEEE behaviour
the script's float casts expose.
-/

/-- Model of a Python float as used by the script: a rational value or NaN. -/
abbrev Pyfloat : Type := Option ℚ

/-- The comparison `x >= t` on floats: false whenever `x` is NaN. -/
def Pyfloat.ge (x : Pyfloat) (t : ℚ) : Bool :=
  match x with
  | Option.some v => decide (t ≤ v)
  | Option.none => false

/-- `HIGH_AMOUNT_THRESHOLD = 100_000` from the script header. -/
def HIGH_AMOUNT_THRESHOLD : ℚ := 100000

/-- `MEDIUM_AMOUNT_THRESHOLD = 50_000` from the script header. -/
def MEDIUM_AMOUNT_THRESHOLD : ℚ := 50000

/-- `HIGH_DELAY_THRESHOLD = 30` from the script header. -/
def HIGH_DELAY_THRESHOLD : ℚ := 30

/-- `MEDIUM_DELAY_THRESHOLD = 10` from the script header. -/
def MEDIUM_DELAY_THRESHOLD : ℚ := 10

/-- `assign_risk_level(amount, delay_days)` from `02_clean_and_engineer.py`:
High when `amount >= 100000 or delay_days >= 30`, else Medium when
`amount >= 50000 or delay_days >= 10`, else Low.  Arguments are floats,
so NaN is a possible input (every comparison on NaN is false). -/
def assign_risk_level (amount delay_days : Pyfloat) : String :=
  if Pyfloat.ge amount HIGH_AMOUNT_THRESHOLD || Pyfloat.ge delay_days HIGH_DELAY_THRESHOLD then
    "High"
  else if Pyfloat.ge amount MEDIUM_AMOUNT_THRESHOLD || Pyfloat.ge delay_days MEDIUM_DELAY_THRESHOLD then
    "Medium"
  else
    "Low"

/-- Rank of a risk tier in the order Low < Medium < High. -/
def tier_rank (s : String) : ℕ :=
  if s = "High" then 2 else if s = "Medium" then 1 else 0

theorem assign_eq_high_iff (a d : ℚ) :
    assign_risk_level (some a) (some d) = "High" ↔ (100000 ≤ a ∨ 30 ≤ d) := by
  simp only [assign_risk_level, Pyfloat.ge, HIGH_AMOUNT_THRESHOLD, HIGH_DELAY_THRESHOLD,
    MEDIUM_AMOUNT_THRESHOLD, MEDIUM_DELAY_THRESHOLD]
  split_ifs with h1 h2 <;> simp_all

theorem assign_eq_medium_iff (a d : ℚ) :
    assign_risk_level (some a) (some d) = "Medium" ↔
      (¬(100000 ≤ a ∨ 30 ≤ d) ∧ (50000 ≤ a ∨ 10 ≤ d)) := by
  simp only [assign_risk_level, Pyfloat.ge, HIGH_AMOUNT_THRESHOLD, HIGH_DELAY_THRESHOLD,
    MEDIUM_AMOUNT_THRESHOLD, MEDIUM_DELAY_THRESHOLD]
  split_ifs with h1 h2 <;> simp_all

theorem assign_eq_low_iff (a d : ℚ) :
    assign_risk_level (some a) (some d) = "Low" ↔
      (¬(100000 ≤ a ∨ 30 ≤ d) ∧ ¬(50000 ≤ a ∨ 10 ≤ d)) := by
  simp only [assign_risk_level, Pyfloat.ge, HIGH_AMOUNT_THRESHOLD, HIGH_DELAY_THRESHOLD,
    MEDIUM_AMOUNT_THRESHOLD, MEDIUM_DELAY_THRESHOLD]
  split_ifs with h1 h2 <;> simp_all

theorem tier_rank_le_two (s : String) : tier_rank s ≤ 2 := by
  unfold tier_rank; split_ifs <;> omega

/-- C1: on numeric inputs, `assign_risk_level` returns "High" iff
`amount ≥ 100000 ∨ delay_days ≥ 30`, "Medium" iff that fails and
`amount ≥ 50000 ∨ delay_days ≥ 10`, and "Low" otherwise (the High check
is evaluated first); and the five concrete examples from the spec hold. -/
theorem risk_threshold_precedence (a d : ℚ) :
    (assign_risk_level (some a) (some d) = "High" ↔ (100000 ≤ a ∨ 30 ≤ d)) ∧
    (assign_risk_level (some a) (some d) = "Medium" ↔
      (¬(100000 ≤ a ∨ 30 ≤ d) ∧ (50000 ≤ a ∨ 10 ≤ d))) ∧
    (assign_risk_level (some a) (some d) = "Low" ↔
      (¬(100000 ≤ a ∨ 30 ≤ d) ∧ ¬(50000 ≤ a ∨ 10 ≤ d))) ∧
    assign_risk_level (some 100000) (some 0) = "High" ∧
    assign_risk_level (some 99999) (some 30) = "High" ∧
    assign_risk_level (some 50000) (some 0) = "Medium" ∧
    assign_risk_level (some 49999) (some 9) = "Low" ∧
    assign_risk_level (some 0) (some 10) = "Medium" :=
  ⟨assign_eq_high_iff a d, assign_eq_medium_iff a d, assign_eq_low_iff a d,
    by decide, by decide, by decide, by decide, by decide⟩

/-- C9: `assign_risk_level` is monotone in both numeric arguments with
respect to the tier order Low < Medium < High: increasing the amount or
the delay never lowers the assigned tier. -/
theorem risk_level_monotone (a₁ a₂ d₁ d₂ : ℚ) (ha : a₁ ≤ a₂) (hd : d₁ ≤ d₂) :
    tier_rank (assign_risk_level (some a₁) (some d₁)) ≤
      tier_rank (assign_risk_level (some a₂) (some d₂)) := by
  by_cases h2 : 100000 ≤ a₂ ∨ 30 ≤ d₂
  · rw [(assign_eq_high_iff a₂ d₂).mpr h2]
    exact le_trans (tier_rank_le_two _) (by decide)
  · have h1 : ¬(100000 ≤ a₁ ∨ 30 ≤ d₁) := by
      push_neg at h2 ⊢
      exact ⟨lt_of_le_of_lt ha h2.1, lt_of_le_of_lt hd h2.2⟩
    by_cases m2 : 50000 ≤ a₂ ∨ 10 ≤ d₂
    · rw [(assign_eq_medium_iff a₂ d₂).mpr ⟨h2, m2⟩]
      by_cases m1 : 50000 ≤ a₁ ∨ 10 ≤ d₁
      · rw [(assign_eq_medium_iff a₁ d₁).mpr ⟨h1, m1⟩]
      · rw [(assign_eq_low_iff a₁ d₁).mpr ⟨h1, m1⟩]; decide
    · have m1 : ¬(50000 ≤ a₁ ∨ 10 ≤ d₁) := by
        push_neg at m2 ⊢
        exact ⟨lt_of_le_of_lt ha m2.1, lt_of_le_of_lt hd m2.2⟩
      rw [(assign_eq_low_iff a₁ d₁).mpr ⟨h1, m1⟩, (assign_eq_low_iff a₂ d₂).mpr ⟨h2, m2⟩]

/-- Witness for C9 at a concrete pair of inputs. -/
theorem risk_level_monotone_witness :
    tier_rank (assign_risk_level (some 60000) (some 5)) ≤
      tier_rank (assign_risk_level (some 120000) (some 7)) :=
  risk_level_monotone 60000 120000 5 7 (by norm_num) (by norm_num)

/-- A customer row: `sector`/`country` may be missing in the raw data. -/
structure Customer where
  customer_id : ℕ
  customer_name : String
  sector : Option String
  country : Option String
deriving DecidableEq

/-- A transaction row after date parsing.  `amount` is a float column, so a
missing or unparseable entry is NaN (`none`). -/
structure Transaction where
  txn_id : ℕ
  customer_id : ℕ
  txn_date : ℤ
  txn_type : String
  amount : Option ℚ
  currency : String
  due_date : ℤ
deriving DecidableEq

/-- A payment row after date parsing; `payment_date = none` is NaT (unpaid). -/
structure Payment where
  payment_id : ℕ
  txn_id : ℕ
  payment_date : Option ℤ
  paid_amount : Option ℚ
deriving DecidableEq

/-- A row of `transactions.merge(payments, on="txn_id", how="left")`:
all transaction columns plus the payment columns, the latter missing when
no payment row matched. -/
structure TPRow where
  txn_id : ℕ
  customer_id : ℕ
  txn_date : ℤ
  txn_type : String
  amount : Option ℚ
  currency : String
  due_date : ℤ
  payment_id : Option ℕ
  payment_date : Option ℤ
  paid_amount : Option ℚ
deriving DecidableEq

/-- A row of the final analysis table: the joined columns plus the derived
`is_paid`, `delay_days`, the customer attributes (with `sector`/`country`
already filled), and `risk_level`. -/
structure AnalysisRow where
  txn_id : ℕ
  customer_id : ℕ
  txn_date : ℤ
  txn_type : String
  amount : Option ℚ
  currency : String
  due_date : ℤ
  payment_id : Option ℕ
  payment_date : Option ℤ
  paid_amount : Option ℚ
  is_paid : Bool
  delay_days : ℤ
  customer_name : Option String
  sector : String
  country : String
  risk_level : String
deriving DecidableEq

/-- Combine one transaction row with one matched payment row (or none). -/
def tpOf (t : Transaction) : Option Payment → TPRow
  | Option.none =>
    { txn_id := t.txn_id, customer_id := t.customer_id, txn_date := t.txn_date,
      txn_type := t.txn_type, amount := t.amount, currency := t.currency,
      due_date := t.due_date, payment_id := none, payment_date := none,
      paid_amount := none }
  | Option.some p =>
    { txn_id := t.txn_id, customer_id := t.customer_id, txn_date := t.txn_date,
      txn_type := t.txn_type, amount := t.amount, currency := t.currency,
      due_date := t.due_date, payment_id := some p.payment_id,
      payment_date := p.payment_date, paid_amount := p.paid_amount }

/-- All output rows one transaction row contributes to the left join with
payments: one row per matching payment, or a single row with missing payment
columns when no payment matches. -/
def mergePayments (ps : List Payment) (t : Transaction) : List TPRow :=
  let ms := ps.filter (fun p => p.txn_id == t.txn_id)
  if ms.isEmpty then [tpOf t none] else ms.map (fun p => tpOf t (some p))

/-- `transactions.merge(payments, on="txn_id", how="left")`. -/
def leftJoinPayments (ts : List Transaction) (ps : List Payment) : List TPRow :=
  ts.flatMap (mergePayments ps)

/-- Tail of `df.drop_duplicates()`: keep a row iff it has not been seen. -/
def dedupAux {α : Type} [DecidableEq α] (seen : List α) : List α → List α
  | [] => []
  | a :: l => if a ∈ seen then dedupAux seen l else a :: dedupAux (seen ++ [a]) l

/-- `df.drop_duplicates()`: keep the first occurrence of every distinct row,
in order. -/
def dedupF {α : Type} [DecidableEq α] (l : List α) : List α :=
  dedupAux [] l

/-- Build a final analysis row from a deduplicated joined row and the matched
customer row (if any), exactly as the script's column operations do:
`is_paid = payment_date.notna()`; `delay_days = (payment_date - due_date).dt.days`
then `.fillna(0)`; `sector`/`country` filled with "Unknown"; `risk_level`
from `assign_risk_level(float(amount), float(delay_days))`. -/
def analysisOf (r : TPRow) (c : Option Customer) : AnalysisRow :=
  let dd : ℤ := match r.payment_date with
    | Option.some p => p - r.due_date
    | Option.none => 0
  { txn_id := r.txn_id, customer_id := r.customer_id, txn_date := r.txn_date,
    txn_type := r.txn_type, amount := r.amount, currency := r.currency,
    due_date := r.due_date, payment_id := r.payment_id,
    payment_date := r.payment_date, paid_amount := r.paid_amount,
    is_paid := r.payment_date.isSome, delay_days := dd,
    customer_name := c.map Customer.customer_name,
    sector := (c.bind Customer.sector).getD "Unknown",
    country := (c.bind Customer.country).getD "Unknown",
    risk_level := assign_risk_level r.amount (some (dd : ℚ)) }

/-- All output rows one joined row contributes to the left join with
customers: one row per matching customer, or a single row with missing
customer attributes when no customer matches. -/
def joinCustomers (cs : List Customer) (r : TPRow) : List AnalysisRow :=
  let ms := cs.filter (fun c => c.customer_id == r.customer_id)
  if ms.isEmpty then [analysisOf r none] else ms.map (fun c => analysisOf r (some c))

/-- The whole `main` transform of `02_clean_and_engineer.py` on parsed
inputs: left join with payments, drop duplicates, derive features, left join
with customers, fill categoricals, assign risk. -/
def run_pipeline (ts : List Transaction) (ps : List Payment) (cs : List Customer) :
    List AnalysisRow :=
  (dedupF (leftJoinPayments ts ps)).flatMap (joinCustomers cs)

theorem mem_dedupAux {α : Type} [DecidableEq α] (b : α) (l : List α) :
    ∀ seen, b ∈ dedupAux seen l ↔ b ∈ l ∧ b ∉ seen := by
  induction l with
  | nil => intro seen; simp [dedupAux]
  | cons a l ih =>
    intro seen
    by_cases hmem : a ∈ seen
    · rw [dedupAux, if_pos hmem, ih]
      constructor
      · rintro ⟨hbl, hbs⟩
        exact ⟨List.mem_cons_of_mem _ hbl, hbs⟩
      · rintro ⟨hbal, hbs⟩
        rcases List.mem_cons.mp hbal with rfl | hbl
        · exact absurd hmem hbs
        · exact ⟨hbl, hbs⟩
    · rw [dedupAux, if_neg hmem, List.mem_cons, ih]
      constructor
      · rintro (rfl | ⟨hbl, hbs⟩)
        · exact ⟨List.mem_cons_self _ _, hmem⟩
        · refine ⟨List.mem_cons_of_mem _ hbl, fun hb => hbs ?_⟩
          simp [List.mem_append, hb]
      · rintro ⟨hbal, hbs⟩
        rcases List.mem_cons.mp hbal with rfl | hbl
        · exact Or.inl rfl
        · by_cases hba : b = a
          · exact Or.inl hba
          · refine Or.inr ⟨hbl, fun hb => ?_⟩
            rcases List.mem_append.mp hb with h | h
            · exact hbs h
            · exact hba (List.mem_singleton.mp h)

theorem nodup_dedupAux {α : Type} [DecidableEq α] (l : List α) :
    ∀ seen, (dedupAux seen l).Nodup := by
  induction l with
  | nil => intro seen; simp [dedupAux]
  | cons a l ih =>
    intro seen
    by_cases hmem : a ∈ seen
    · rw [dedupAux, if_pos hmem]; exact ih seen
    · rw [dedupAux, if_neg hmem]
      refine List.Nodup.cons (fun ha => ?_) (ih (seen ++ [a]))
      have := (mem_dedupAux a l (seen ++ [a])).mp ha
      exact this.2 (by simp)

theorem dedupAux_eq_self {α : Type} [DecidableEq α] (l : List α) :
    ∀ seen, l.Nodup → (∀ b ∈ l, b ∉ seen) → dedupAux seen l = l := by
  induction l with
  | nil => intro seen _ _; simp [dedupAux]
  | cons a l ih =>
    intro seen hnd hout
    have ha : a ∉ seen := hout a (List.mem_cons_self a l)
    rw [dedupAux, if_neg ha]
    have hnd' := List.nodup_cons.mp hnd
    refine congrArg (a :: ·) (ih (seen ++ [a]) hnd'.2 fun b hb hmem => ?_)
    rcases List.mem_append.mp hmem with h | h
    · exact hout b (List.mem_cons_of_mem _ hb) h
    · rw [List.mem_singleton.mp h] at hb
      exact hnd'.1 hb

theorem mem_dedupF {α : Type} [DecidableEq α] (b : α) (l : List α) :
    b ∈ dedupF l ↔ b ∈ l := by
  rw [dedupF, mem_dedupAux]
  simp

theorem nodup_dedupF {α : Type} [DecidableEq α] (l : List α) : (dedupF l).Nodup :=
  nodup_dedupAux l []

theorem dedupF_eq_self_of_nodup {α : Type} [DecidableEq α] (l : List α)
    (h : l.Nodup) : dedupF l = l :=
  dedupAux_eq_self l [] h (by simp)

theorem dedupF_idem {α : Type} [DecidableEq α] (l : List α) :
    dedupF (dedupF l) = dedupF l :=
  dedupF_eq_self_of_nodup _ (nodup_dedupF l)

theorem dedupF_perm {α : Type} [DecidableEq α] {l₁ l₂ : List α} (h : l₁.Perm l₂) :
    (dedupF l₁).Perm (dedupF l₂) := by
  refine (List.perm_ext_iff_of_nodup (nodup_dedupF l₁) (nodup_dedupF l₂)).mpr fun a => ?_
  rw [mem_dedupF, mem_dedupF]
  exact h.mem_iff

theorem mem_joinCustomers {cs : List Customer} {r : TPRow} {row : AnalysisRow}
    (h : row ∈ joinCustomers cs r) :
    (row = analysisOf r none ∧ ∀ c ∈ cs, c.customer_id ≠ r.customer_id) ∨
      ∃ c, c ∈ cs ∧ c.customer_id = r.customer_id ∧ row = analysisOf r (some c) := by
  rw [joinCustomers] at h
  by_cases he : (cs.filter (fun c => c.customer_id == r.customer_id)).isEmpty
  · rw [if_pos he] at h
    left
    refine ⟨List.mem_singleton.mp h, fun c hc hid => ?_⟩
    rw [List.isEmpty_iff, List.filter_eq_nil_iff] at he
    exact he c hc (by simp [hid])
  · rw [if_neg he] at h
    obtain ⟨c, hc, hrow⟩ := List.mem_map.mp h
    have := List.mem_filter.mp hc
    exact Or.inr ⟨c, this.1, by simpa using this.2, hrow.symm⟩

theorem mem_run_pipeline {ts : List Transaction} {ps : List Payment}
    {cs : List Customer} {row : AnalysisRow} (h : row ∈ run_pipeline ts ps cs) :
    ∃ r, r ∈ dedupF (leftJoinPayments ts ps) ∧
      ((row = analysisOf r none ∧ ∀ c ∈ cs, c.customer_id ≠ r.customer_id) ∨
        ∃ c, c ∈ cs ∧ c.customer_id = r.customer_id ∧ row = analysisOf r (some c)) := by
  rw [run_pipeline] at h
  obtain ⟨r, hr, hrow⟩ := List.mem_flatMap.mp h
  exact ⟨r, hr, mem_joinCustomers hrow⟩

theorem analysisOf_payment_date (r : TPRow) (co : Option Customer) :
    (analysisOf r co).payment_date = r.payment_date := rfl

theorem analysisOf_due_date (r : TPRow) (co : Option Customer) :
    (analysisOf r co).due_date = r.due_date := rfl

theorem analysisOf_customer_id (r : TPRow) (co : Option Customer) :
    (analysisOf r co).customer_id = r.customer_id := rfl

theorem analysisOf_amount (r : TPRow) (co : Option Customer) :
    (analysisOf r co).amount = r.amount := rfl

theorem analysisOf_is_paid (r : TPRow) (co : Option Customer) :
    (analysisOf r co).is_paid = r.payment_date.isSome := rfl

theorem analysisOf_delay_days (r : TPRow) (co : Option Customer) :
    (analysisOf r co).delay_days =
      match r.payment_date with
      | Option.some p => p - r.due_date
      | Option.none => 0 := rfl

theorem analysisOf_risk_level (r : TPRow) (co : Option Customer) :
    (analysisOf r co).risk_level =
      assign_risk_level r.amount (some (((analysisOf r co).delay_days : ℤ) : ℚ)) := rfl

theorem analysisOf_sector (r : TPRow) (co : Option Customer) :
    (analysisOf r co).sector = (co.bind Customer.sector).getD "Unknown" := rfl

theorem analysisOf_country (r : TPRow) (co : Option Customer) :
    (analysisOf r co).country = (co.bind Customer.country).getD "Unknown" := rfl

theorem exists_analysisOf_of_mem {ts : List Transaction} {ps : List Payment}
    {cs : List Customer} {row : AnalysisRow} (h : row ∈ run_pipeline ts ps cs) :
    ∃ r co, row = analysisOf r co := by
  obtain ⟨r, _, hcase⟩ := mem_run_pipeline h
  rcases hcase with ⟨hr, _⟩ | ⟨c, _, _, hr⟩
  · exact ⟨r, none, hr⟩
  · exact ⟨r, some c, hr⟩

/-- C2: in every emitted row, a missing `payment_date` yields
`is_paid = false` and `delay_days = 0` regardless of `due_date`, and a
present `payment_date` yields `is_paid = true` and
`delay_days = payment_date - due_date` in whole days. -/
theorem unpaid_delay_policy (ts : List Transaction) (ps : List Payment)
    (cs : List Customer) (row : AnalysisRow) (h : row ∈ run_pipeline ts ps cs) :
    (row.payment_date = none → row.is_paid = false ∧ row.delay_days = 0) ∧
    (∀ p : ℤ, row.payment_date = some p →
      row.is_paid = true ∧ row.delay_days = p - row.due_date) := by
  obtain ⟨r, co, rfl⟩ := exists_analysisOf_of_mem h
  constructor
  · intro hp
    rw [analysisOf_payment_date] at hp
    refine ⟨?_, ?_⟩
    · rw [analysisOf_is_paid, hp]; rfl
    · rw [analysisOf_delay_days, hp]
  · intro p hp
    rw [analysisOf_payment_date] at hp
    refine ⟨?_, ?_⟩
    · rw [analysisOf_is_paid, hp]; rfl
    · rw [analysisOf_delay_days, analysisOf_due_date, hp]

/-- A sample transaction used to exercise the pipeline on concrete input. -/
def txnEx1 : Transaction :=
  { txn_id := 1, customer_id := 1, txn_date := 0, txn_type := "SALE",
    amount := some 120000, currency := "PLN", due_date := 10 }

/-- A sample payment matching `txnEx1`, five days late. -/
def payEx1 : Payment :=
  { payment_id := 1, txn_id := 1, payment_date := some 15, paid_amount := some 110000 }

/-- The single row the pipeline emits for `txnEx1`/`payEx1` with no customers. -/
def rowEx1 : AnalysisRow := analysisOf (tpOf txnEx1 (some payEx1)) none

/-- Witness for C2 on a concrete paid row. -/
theorem unpaid_delay_policy_witness :
    rowEx1.is_paid = true ∧ rowEx1.delay_days = 15 - rowEx1.due_date :=
  (unpaid_delay_policy [txnEx1] [payEx1] [] rowEx1 (by decide)).2 15 (by decide)

/-- C5: an emitted row whose `customer_id` matches no customer has
`sector = "Unknown"` and `country = "Unknown"`; more generally `sector` and
`country` are never missing: each is either "Unknown" or the declared value
of a matching customer. -/
theorem referential_fallback (ts : List Transaction) (ps : List Payment)
    (cs : List Customer) (row : AnalysisRow) (h : row ∈ run_pipeline ts ps cs) :
    ((∀ c ∈ cs, c.customer_id ≠ row.customer_id) →
      row.sector = "Unknown" ∧ row.country = "Unknown") ∧
    (row.sector = "Unknown" ∨
      ∃ c ∈ cs, c.customer_id = row.customer_id ∧ c.sector = some row.sector) ∧
    (row.country = "Unknown" ∨
      ∃ c ∈ cs, c.customer_id = row.customer_id ∧ c.country = some row.country) := by
  obtain ⟨r, _, hcase⟩ := mem_run_pipeline h
  rcases hcase with ⟨rfl, _⟩ | ⟨c, hc, hid, rfl⟩
  · exact ⟨fun _ => ⟨rfl, rfl⟩, Or.inl rfl, Or.inl rfl⟩
  · have hcid : c.customer_id = (analysisOf r (some c)).customer_id := by
      rw [analysisOf_customer_id]; exact hid
    refine ⟨fun hall => absurd hcid (hall c hc), ?_, ?_⟩
    · cases hs : c.sector with
      | none => left; rw [analysisOf_sector]; simp [hs]
      | some s =>
        right
        refine ⟨c, hc, hcid, ?_⟩
        rw [analysisOf_sector]
        simp [hs]
    · cases hs : c.country with
      | none => left; rw [analysisOf_country]; simp [hs]
      | some s =>
        right
        refine ⟨c, hc, hcid, ?_⟩
        rw [analysisOf_country]
        simp [hs]

/-- Witness for C5: with an empty customer table the single emitted row
falls back to "Unknown". -/
theorem referential_fallback_witness :
    rowEx1.sector = "Unknown" ∧ rowEx1.country = "Unknown" :=
  (referential_fallback [txnEx1] [payEx1] [] rowEx1 (by decide)).1 (by simp)

/-- C10: a paid row whose `payment_date` is strictly earlier than its
`due_date` is emitted with strictly negative `delay_days` (the zero-fill
touches only unpaid rows), and such a row is still classified through the
amount thresholds: "High" when `amount ≥ 100000`, "Medium" when
`50000 ≤ amount < 100000`. -/
theorem early_payment_negative_delay (ts : List Transaction) (ps : List Payment)
    (cs : List Customer) (row : AnalysisRow) (h : row ∈ run_pipeline ts ps cs)
    (p : ℤ) (hp : row.payment_date = some p) (hearly : p < row.due_date) :
    row.delay_days < 0 ∧
    (∀ a : ℚ, row.amount = some a →
      (100000 ≤ a → row.risk_level = "High") ∧
      (50000 ≤ a → a < 100000 → row.risk_level = "Medium")) := by
  obtain ⟨r, co, rfl⟩ := exists_analysisOf_of_mem h
  rw [analysisOf_payment_date] at hp
  rw [analysisOf_due_date] at hearly
  have hdd : (analysisOf r co).delay_days = p - r.due_date := by
    rw [analysisOf_delay_days, hp]
  have hneg : p - r.due_date < 0 := by omega
  have hddneg : (analysisOf r co).delay_days < 0 := by rw [hdd]; exact hneg
  refine ⟨hddneg, ?_⟩
  intro a ha
  rw [analysisOf_amount] at ha
  have hrisk : (analysisOf r co).risk_level =
      assign_risk_level (some a) (some (((analysisOf r co).delay_days : ℤ) : ℚ)) := by
    rw [analysisOf_risk_level, ha]
  have hq : (((analysisOf r co).delay_days : ℤ) : ℚ) < 0 := by exact_mod_cast hddneg
  constructor
  · intro hA
    rw [hrisk]
    exact (assign_eq_high_iff _ _).mpr (Or.inl hA)
  · intro h50 h100
    rw [hrisk]
    refine (assign_eq_medium_iff _ _).mpr ⟨?_, Or.inl h50⟩
    push_neg
    exact ⟨h100, by linarith⟩

/-- A sample payment matching `txnEx1` but four days early. -/
def payEx2 : Payment :=
  { payment_id := 2, txn_id := 1, payment_date := some 6, paid_amount := some 110000 }

/-- The single row the pipeline emits for `txnEx1`/`payEx2` with no customers. -/
def rowEx2 : AnalysisRow := analysisOf (tpOf txnEx1 (some payEx2)) none

/-- Witness for C10 on a concrete early-paid row. -/
theorem early_payment_negative_delay_witness :
    rowEx2.delay_days < 0 ∧ rowEx2.risk_level = "High" := by
  have h := early_payment_negative_delay [txnEx1] [payEx2] [] rowEx2 (by decide)
    6 (by decide) (by decide)
  exact ⟨h.1, (h.2 120000 (by decide)).1 (by norm_num)⟩

/-- C8: `drop_duplicates` is idempotent and order-independent up to row
order: re-running it on its own output is a no-op, and permuting the input
rows permutes the output rows. -/
theorem dedup_idempotent_order_independent :
    (∀ l : List TPRow, dedupF (dedupF l) = dedupF l) ∧
    (∀ l₁ l₂ : List TPRow, l₁.Perm l₂ → (dedupF l₁).Perm (dedupF l₂)) :=
  ⟨fun l => dedupF_idem l, fun _ _ h => dedupF_perm h⟩

/-- A second joined sample row, distinct from `tpOf txnEx1 (some payEx1)`. -/
def tpEx2 : TPRow := tpOf txnEx1 (some payEx2)

/-- A first joined sample row. -/
def tpEx1 : TPRow := tpOf txnEx1 (some payEx1)

/-- Witness for C8 on a concrete duplicated list and a concrete permutation. -/
theorem dedup_idempotent_order_independent_witness :
    dedupF (dedupF [tpEx1, tpEx2, tpEx1]) = dedupF [tpEx1, tpEx2, tpEx1] ∧
    (dedupF [tpEx1, tpEx2, tpEx1]).Perm (dedupF [tpEx2, tpEx1, tpEx1]) :=
  ⟨dedup_idempotent_order_independent.1 [tpEx1, tpEx2, tpEx1],
    dedup_idempotent_order_independent.2 [tpEx1, tpEx2, tpEx1] [tpEx2, tpEx1, tpEx1]
      (by decide)⟩

/-- A transaction sharing `txn_id = 1` with `txnC3b` but a different amount. -/
def txnC3a : Transaction :=
  { txn_id := 1, customer_id := 1, txn_date := 0, txn_type := "SALE",
    amount := some 100, currency := "PLN", due_date := 10 }

/-- A transaction sharing `txn_id = 1` with `txnC3a` but a different amount. -/
def txnC3b : Transaction :=
  { txn_id := 1, customer_id := 1, txn_date := 0, txn_type := "SALE",
    amount := some 200, currency := "PLN", due_date := 10 }

/-- C3 counterexample: two input transactions with the same `txn_id` but
different amounts both survive deduplication, so two distinct emitted rows
share a `txn_id`. -/
theorem txn_id_unique_counterexample :
    ¬ (∀ r₁ ∈ run_pipeline [txnC3a, txnC3b] [] [],
        ∀ r₂ ∈ run_pipeline [txnC3a, txnC3b] [] [],
          r₁.txn_id = r₂.txn_id → r₁ = r₂) := by decide

/-- C3 amended: deduplication guarantees full-row uniqueness, not `txn_id`
uniqueness — after the dedup step no two surviving joined rows are byte-for-byte
identical, while rows sharing a `txn_id` but differing in any other column
are preserved as distinct rows. -/
theorem dedup_full_row_unique (ts : List Transaction) (ps : List Payment) :
    (dedupF (leftJoinPayments ts ps)).Nodup :=
  nodup_dedupF _

theorem filter_key_length_le_one {β : Type} (key : β → ℕ) (l : List β) (k : ℕ)
    (h : (l.map key).Nodup) : (l.filter (fun b => key b == k)).length ≤ 1 := by
  induction l with
  | nil => simp
  | cons b l ih =>
    rw [List.map_cons, List.nodup_cons] at h
    by_cases hbk : key b = k
    · have hnil : l.filter (fun q => key q == k) = [] := by
        rw [List.filter_eq_nil_iff]
        intro q hq
        simp only [beq_iff_eq]
        intro hqk
        exact h.1 (List.mem_map.mpr ⟨q, hq, by rw [hqk, hbk]⟩)
      rw [List.filter_cons_of_pos (by simp [hbk]), hnil]
      simp
    · rw [List.filter_cons_of_neg (by simp [hbk])]
      exact ih h.2

theorem length_mergePayments (ps : List Payment) (t : Transaction)
    (hps : (ps.map Payment.txn_id).Nodup) : (mergePayments ps t).length = 1 := by
  rw [mergePayments]
  by_cases he : (ps.filter (fun p => p.txn_id == t.txn_id)).isEmpty
  · rw [if_pos he]; rfl
  · rw [if_neg he, List.length_map]
    have hle := filter_key_length_le_one Payment.txn_id ps t.txn_id hps
    have hpos : (ps.filter (fun p => p.txn_id == t.txn_id)) ≠ [] := by
      intro hnil
      rw [hnil] at he
      exact he rfl
    have h1 : 0 < (ps.filter (fun p => p.txn_id == t.txn_id)).length :=
      List.length_pos.mpr hpos
    omega

theorem length_joinCustomers (cs : List Customer) (r : TPRow)
    (hcs : (cs.map Customer.customer_id).Nodup) : (joinCustomers cs r).length = 1 := by
  rw [joinCustomers]
  by_cases he : (cs.filter (fun c => c.customer_id == r.customer_id)).isEmpty
  · rw [if_pos he]; rfl
  · rw [if_neg he, List.length_map]
    have hle := filter_key_length_le_one Customer.customer_id cs r.customer_id hcs
    have hpos : (cs.filter (fun c => c.customer_id == r.customer_id)) ≠ [] := by
      intro hnil
      rw [hnil] at he
      exact he rfl
    have h1 : 0 < (cs.filter (fun c => c.customer_id == r.customer_id)).length :=
      List.length_pos.mpr hpos
    omega

theorem length_flatMap_of_forall_one {α β : Type} (l : List α) (f : α → List β)
    (h : ∀ a ∈ l, (f a).length = 1) : (l.flatMap f).length = l.length := by
  induction l with
  | nil => rfl
  | cons a l ih =>
    rw [List.flatMap_cons, List.length_append, h a (List.mem_cons_self _ _),
      ih fun b hb => h b (List.mem_cons_of_mem _ hb), List.length_cons]
    omega

/-- A payment matching `txnC4`, on time. -/
def payC4a : Payment :=
  { payment_id := 1, txn_id := 1, payment_date := some 10, paid_amount := some 100 }

/-- A second payment also matching `txnC4` (same `txn_id`, different id). -/
def payC4b : Payment :=
  { payment_id := 2, txn_id := 1, payment_date := some 12, paid_amount := some 50 }

/-- The transaction multiplied by the two payments above. -/
def txnC4 : Transaction :=
  { txn_id := 1, customer_id := 1, txn_date := 0, txn_type := "SALE",
    amount := some 100, currency := "PLN", due_date := 10 }

/-- C4 counterexample: one input transaction with two matching payment rows
is multiplied into two output rows, so a post-dedup transaction row does not
appear exactly once in the emitted table. -/
theorem join_completeness_counterexample :
    ((run_pipeline [txnC4] [payC4a, payC4b] []).map AnalysisRow.txn_id) = [1, 1] ∧
    (run_pipeline [txnC4] [payC4a, payC4b] []).length = 2 := by decide

/-- C4 amended: under the data-model assumption that each `txn_id` has at
most one payment row and each `customer_id` at most one customer row, the
left joins neither drop nor multiply rows: the payment join emits exactly one
joined row per transaction row, and the customer join emits exactly one
analysis row per joined row surviving deduplication. -/
theorem join_completeness_amended (ts : List Transaction) (ps : List Payment)
    (cs : List Customer) (hps : (ps.map Payment.txn_id).Nodup)
    (hcs : (cs.map Customer.customer_id).Nodup) :
    (leftJoinPayments ts ps).length = ts.length ∧
    (run_pipeline ts ps cs).length = (dedupF (leftJoinPayments ts ps)).length := by
  constructor
  · exact length_flatMap_of_forall_one ts (mergePayments ps)
      fun t _ => length_mergePayments ps t hps
  · exact length_flatMap_of_forall_one _ (joinCustomers cs)
      fun r _ => length_joinCustomers cs r hcs

/-- Witness for the amended C4 on concrete key-unique inputs. -/
theorem join_completeness_amended_witness :
    (leftJoinPayments [txnEx1] [payEx1]).length = 1 ∧
    (run_pipeline [txnEx1] [payEx1] []).length =
      (dedupF (leftJoinPayments [txnEx1] [payEx1])).length := by
  have h := join_completeness_amended [txnEx1] [payEx1] [] (by decide) (by decide)
  exact ⟨by rw [h.1]; rfl, h.2⟩

/-- The transaction C7 is about: its `amount` is missing (NaN). -/
def txnC7 : Transaction :=
  { txn_id := 7, customer_id := 1, txn_date := 0, txn_type := "SALE",
    amount := none, currency := "PLN", due_date := 10 }

/-- C7: evaluating the pipeline at a row whose `amount` is missing shows the
code silently assigns the "Low" tier (every float comparison on NaN is
false), instead of rejecting the row with a `ValidationError` naming its
`txn_id` — the pipeline has no error channel at all. -/
theorem missing_amount_silently_low :
    ((run_pipeline [txnC7] [] []).map AnalysisRow.risk_level = ["Low"]) ∧
    ((run_pipeline [txnC7] [] []).map AnalysisRow.txn_id = [7]) := by decide

/-- A raw transaction row as read from CSV: date cells are still strings. -/
structure RawTransaction where
  txn_id : ℕ
  customer_id : ℕ
  txn_date : String
  txn_type : String
  amount : Option ℚ
  currency : String
  due_date : String
deriving DecidableEq

/-- A raw payment row as read from CSV: the date cell is still a string. -/
structure RawPayment where
  payment_id : ℕ
  txn_id : ℕ
  payment_date : String
  paid_amount : Option ℚ
deriving DecidableEq

/-- Numeric value of a decimal digit character. -/
def digitVal (c : Char) : ℤ := (c.toNat : ℤ) - 48

/-- Parse the characters of an ISO-8601 `YYYY-MM-DD` cell (the format the
repository's tables use, per the external-interface convention); anything
else is unparseable. -/
def parseDateChars : List Char → Option ℤ
  | [y1, y2, y3, y4, '-', m1, m2, '-', d1, d2] =>
    if y1.isDigit && y2.isDigit && y3.isDigit && y4.isDigit &&
        m1.isDigit && m2.isDigit && d1.isDigit && d2.isDigit then
      some ((((digitVal y1 * 10 + digitVal y2) * 10 + digitVal y3) * 10 + digitVal y4) * 10000 +
        (digitVal m1 * 10 + digitVal m2) * 100 + (digitVal d1 * 10 + digitVal d2))
    else none
  | _ => none

/-- Parse one date cell: `some` on success, `none` when unparseable. -/
def parseDate (s : String) : Option ℤ := parseDateChars s.toList

/-- Strict parsing of one transaction row, as
`pd.to_datetime(transactions["txn_date"])` and
`pd.to_datetime(transactions["due_date"])` do with the default
`errors="raise"`: an unparseable `txn_date` or `due_date` aborts with an
error carrying the offending cell, it is not coerced. -/
def loadTransaction (r : RawTransaction) : Except String Transaction :=
  match parseDate r.txn_date, parseDate r.due_date with
  | some td, some dd =>
    Except.ok
      { txn_id := r.txn_id, customer_id := r.customer_id, txn_date := td,
        txn_type := r.txn_type, amount := r.amount, currency := r.currency,
        due_date := dd }
  | none, _ => Except.error r.txn_date
  | some _, none => Except.error r.due_date

/-- Strict parsing of the whole transactions table: the first unparseable
date cell aborts the load. -/
def loadTransactions : List RawTransaction → Except String (List Transaction)
  | [] => Except.ok []
  | r :: rs =>
    match loadTransaction r, loadTransactions rs with
    | Except.ok t, Except.ok ts => Except.ok (t :: ts)
    | Except.error e, _ => Except.error e
    | Except.ok _, Except.error e => Except.error e

/-- Coercing parse of one payment row, as
`pd.to_datetime(payments["payment_date"], errors="coerce")` does: an
unparseable `payment_date` becomes the missing marker NaT. -/
def loadPayment (r : RawPayment) : Payment :=
  { payment_id := r.payment_id, txn_id := r.txn_id,
    payment_date := parseDate r.payment_date, paid_amount := r.paid_amount }

/-- `load_raw_data()` from `02_clean_and_engineer.py`: customers pass
through, transaction dates are parsed strictly, payment dates are coerced. -/
def load_raw_data (customers : List Customer) (rts : List RawTransaction)
    (rps : List RawPayment) :
    Except String (List Customer × List Transaction × List Payment) :=
  match loadTransactions rts with
  | Except.ok ts => Except.ok (customers, ts, rps.map loadPayment)
  | Except.error e => Except.error e

/-- A raw transaction whose `txn_date` cell is malformed. -/
def rawTxnBad : RawTransaction :=
  { txn_id := 1, customer_id := 1, txn_date := "not-a-date", txn_type := "SALE",
    amount := some 10, currency := "PLN", due_date := "2024-01-10" }

/-- C6 counterexample: a malformed `txn_date` aborts the load with an error
instead of being coerced to the missing marker — only `payment_date` is
parsed with coercion. -/
theorem load_raises_on_malformed_date :
    load_raw_data [] [rawTxnBad] [] = Except.error "not-a-date" := by rfl

/-- C6 amended: only `payment_date` enjoys the coercion contract: when every
`txn_date` and `due_date` cell parses, the load succeeds and each loaded
payment's `payment_date` is the coerced parse of its raw cell (`none` when
unparseable, never an error); a malformed `txn_date` or `due_date` instead
aborts the load. -/
theorem date_coercion_amended (cs : List Customer) (rts : List RawTransaction)
    (rps : List RawPayment)
    (h : ∀ r ∈ rts, (parseDate r.txn_date).isSome ∧ (parseDate r.due_date).isSome) :
    (∃ ts, load_raw_data cs rts rps = Except.ok (cs, ts, rps.map loadPayment)) ∧
    (rps.map loadPayment).map Payment.payment_date =
      rps.map (fun r => parseDate r.payment_date) := by
  constructor
  · have hts : ∃ ts, loadTransactions rts = Except.ok ts := by
      induction rts with
      | nil => exact ⟨[], rfl⟩
      | cons r rs ih =>
        obtain ⟨h1, h2⟩ := h r (List.mem_cons_self _ _)
        obtain ⟨ts, hts⟩ := ih fun q hq => h q (List.mem_cons_of_mem _ hq)
        obtain ⟨td, htd⟩ := Option.isSome_iff_exists.mp h1
        obtain ⟨dd, hdd⟩ := Option.isSome_iff_exists.mp h2
        refine
          ⟨{ txn_id := r.txn_id, customer_id := r.customer_id, txn_date := td,
              txn_type := r.txn_type, amount := r.amount, currency := r.currency,
              due_date := dd } :: ts, ?_⟩
        rw [loadTransactions, loadTransaction, htd, hdd, hts]
    obtain ⟨ts, hts⟩ := hts
    exact ⟨ts, by rw [load_raw_data, hts]⟩
  · rw [List.map_map]
    rfl

/-- A raw transaction whose date cells are well-formed. -/
def rawTxnGood : RawTransaction :=
  { txn_id := 1, customer_id := 1, txn_date := "2024-01-05", txn_type := "SALE",
    amount := some 10, currency := "PLN", due_date := "2024-01-10" }

/-- A raw payment whose `payment_date` cell is malformed. -/
def rawPayBad : RawPayment :=
  { payment_id := 1, txn_id := 1, payment_date := "oops", paid_amount := some 10 }

/-- Witness for the amended C6: the load succeeds on well-formed transaction
dates and coerces the malformed `payment_date` to the missing marker. -/
theorem date_coercion_amended_witness :
    (∃ ts, load_raw_data [] [rawTxnGood] [rawPayBad] =
      Except.ok ([], ts, [rawPayBad].map loadPayment)) ∧
    ([rawPayBad].map loadPayment).map Payment.payment_date =
      [rawPayBad].map (fun r => parseDate r.payment_date) :=
  date_coercion_amended [] [rawTxnGood] [rawPayBad] (by decide)
